import Mathlib

/-!
Verification of the WXF encoder chain of `wxfserializer/wxfencoder.py`
(WolframClientForPython), as a shallow embedding.

The file models:
* the native Python values the `DefaultWXFEncoder` dispatches on (`Value`),
* the token objects of the external `wxfexpr` module (`Token`) — only their
  identity and payload matter here, never their byte layout,
* generator runs as a finite list of yielded tokens followed by an optional
  terminal exception (`TokenStream`),
* `WXFEncoder.serialize`, `WXFEncoder._encode` and `DefaultWXFEncoder.encode`
  translated from the source, and the `WXFExprProvider` dispatch loop, which is
  not part of the source tree, modelled from the spec.

A Python generator run is deterministic and finite here (values are finite
trees), so it is faithfully represented as the list of tokens it yields
followed by the exception, if any, that terminates it.
-/

/-- Payload of a Python `float`.  The encoder only ever copies floats verbatim
into tokens (including `complex.real` / `complex.imag` field reads), so the
payload is modelled as an opaque bit pattern on which no arithmetic happens. -/
structure PyFloat where
  bits : Nat
deriving DecidableEq, Repr

/-- The native Python values `DefaultWXFEncoder.encode` dispatches on.
`other name` stands for any object of a type matching none of the eight
`isinstance`/`is` checks; `name` is its runtime type name (`type(o).__name__`),
which the chain reports when no encoder claims the value.  Dictionaries are
modelled as their entry list in iteration (insertion) order. -/
inductive Value where
  | str (s : String)
  | int (n : Int)
  | bool (b : Bool)
  | list (xs : List Value)
  | dict (entries : List (Value × Value))
  | none
  | real (x : PyFloat)
  | complex (re im : PyFloat)
  | other (typeName : String)

/-- Python `type(o).__name__`, used by the chain's unsupported-type error. -/
def Value.typeName : Value → String
  | .str _ => "str"
  | .int _ => "int"
  | .bool _ => "bool"
  | .list _ => "list"
  | .dict _ => "dict"
  | .none => "NoneType"
  | .real _ => "float"
  | .complex _ _ => "complex"
  | .other t => t

/-- The token objects of the external `wxfexpr` module, by payload.
`func` is `WXFExprFunction(length)`, `assoc` is `WXFExprAssociation(length)`,
`rule` is `WXFExprRule()`.  `WXFExprInteger` stores the value it is given;
for a Python `bool` that value compares equal to `1` / `0`, recorded here as
the corresponding `Int`. -/
inductive Token where
  | string (s : String)
  | integer (n : Int)
  | func (arity : Nat)
  | symbol (name : String)
  | assoc (arity : Nat)
  | rule
  | real (x : PyFloat)
deriving DecidableEq, Repr

/-- The exceptions a generator run can terminate with in this development. -/
inductive Err where
  | notEncoded
  | unsupportedType (typeName : String)
  | attributeError
deriving DecidableEq, Repr

/-- One finished run of a token generator: the tokens it yielded, in order,
then the exception that ended it, if it did not end by plain exhaustion. -/
structure TokenStream where
  tokens : List Token
  err : Option Err
deriving DecidableEq, Repr

/-- Sequencing two generator runs (`yield from a; yield from b`): if `a` ends
in an exception, `b` is never started. -/
def TokenStream.append (a b : TokenStream) : TokenStream :=
  match a.err with
  | some _ => a
  | Option.none => ⟨a.tokens ++ b.tokens, b.err⟩

instance : Append TokenStream := ⟨TokenStream.append⟩

/-- A run that yields exactly one token and finishes. -/
def TokenStream.one (t : Token) : TokenStream := ⟨[t], Option.none⟩

namespace WXFEncoder

/-- Translation of `WXFEncoder._encode` as a transformer of the run of
`self.encode(o)`.  The source keeps a sentinel `value = None`, yields every
token `self.encode(o)` produces (re-raising its exception, if any, at the
point it occurs), and finally raises `NotEncodedException` when the sentinel
was never overwritten — i.e. when the loop body never ran.  Tokens are
`WXFExpr` objects and never the `None` singleton, so the sentinel test
`value is None` is exactly the empty-output test. -/
def _encode (s : TokenStream) : TokenStream :=
  match s.err with
  | some _ => s
  | Option.none =>
    match s.tokens.getLast? with
    | Option.none => ⟨[], some Err.notEncoded⟩
    | some _ => s

end WXFEncoder

/-- Python `isinstance(o, six.string_types)`. -/
def isinstance_string : Value → Bool
  | .str _ => true
  | _ => false

/-- Python `isinstance(o, six.integer_types)`.  In Python, `bool` is a subclass of
`int`, so `True` and `False` satisfy this check as well: the integer branch of
`DefaultWXFEncoder.encode` claims booleans before the later `is True` /
`is False` branches can run. -/
def isinstance_integer : Value → Bool
  | .int _ => true
  | .bool _ => true
  | _ => false

/-- Python `isinstance(o, list)`. -/
def isinstance_list : Value → Bool
  | .list _ => true
  | _ => false

/-- Python `isinstance(o, dict)`. -/
def isinstance_dict : Value → Bool
  | .dict _ => true
  | _ => false

/-- Python `isinstance(o, float)`.  A Python `bool` is not a `float`. -/
def isinstance_float : Value → Bool
  | .real _ => true
  | _ => false

/-- Python `isinstance(o, complex)`. -/
def isinstance_complex : Value → Bool
  | .complex _ _ => true
  | _ => false

/-- The integer value `WXFExprInteger` receives on the branch guarded by
`isinstance(o, six.integer_types)`: an `int` is passed through, a `bool`
compares equal to `1` / `0` (it *is* the integer `1` / `0` in Python). -/
def integerPayload : Value → Int
  | .int n => n
  | .bool b => if b then 1 else 0
  | _ => 0

/-!
The concrete system the functional-correctness claims are about: a provider
whose chain consists of the `DefaultWXFEncoder` alone.  `DefaultWXFEncoder`
is chain-bound: `self.serialize(pyArg)` forwards to the provider, which wraps
this same encoder's `encode` in `WXFEncoder._encode` and, when it raises
`NotEncodedException`, reports the unsupported type.  The recursion of the
Python source therefore ties `encode` and the provider dispatch into one
knot, rendered below as a mutual definition:

* `defaultEncode v`   — the run of `DefaultWXFEncoder.encode(v)`,
* `encodeElems xs`    — the run of the `for pyArg in iter(list): yield from
  self.serialize(pyArg)` loop of the list branch,
* `encodeEntries es`  — the run of the `for key, value in dict.items()` loop
  of the dict branch,
* `provideDefault v`  — the run of `provider.provide_wxfexpr(v)` for the
  one-encoder chain `[DefaultWXFEncoder]` (dispatch modelled from the spec,
  see `provide_wxfexpr` below).
-/

mutual

/-- Run of `DefaultWXFEncoder.encode(pythonExpr)`.  Each `Value` constructor
lands in exactly one branch of the source's `elif` chain; the one overlap of
the chain's checks is that a `bool` satisfies `isinstance(_, six.integer_types)`
(see `isinstance_integer`), so the `.bool` case records the *integer* branch
and the source's `is True` / `is False` branches are unreachable.
`defaultEncode_eq_encodeBody` below re-checks this rendering against a literal
transcription of the `elif` chain. -/
def defaultEncode : Value → TokenStream
  | .str s => TokenStream.one (.string s)
  | .int n => TokenStream.one (.integer n)
  | .bool b => TokenStream.one (.integer (if b then 1 else 0))
  | .list xs =>
    TokenStream.append ⟨[.func xs.length, .symbol "List"], Option.none⟩ (encodeElems xs)
  | .dict es =>
    TokenStream.append ⟨[.assoc es.length], Option.none⟩ (encodeEntries es)
  | .none => TokenStream.one (.symbol "None")
  | .real x => TokenStream.one (.real x)
  | .complex re im =>
    ⟨[.func 2, .symbol "Complex", .real re, .real im], Option.none⟩
  | .other _ => ⟨[], Option.none⟩
termination_by v => (sizeOf v, 1)

/-- The element loop of the list branch: each element is serialized through
the chain (`self.serialize(pyArg)` = `provideDefault` here) and its tokens
re-yielded; an exception aborts the loop at the point it occurs. -/
def encodeElems : List Value → TokenStream
  | [] => ⟨[], Option.none⟩
  | x :: rest => TokenStream.append (provideDefault x) (encodeElems rest)
termination_by xs => (sizeOf xs, 0)

/-- The entry loop of the dict branch: per entry a `WXFExprRule()`, then the
serialized key, then the serialized value. -/
def encodeEntries : List (Value × Value) → TokenStream
  | [] => ⟨[], Option.none⟩
  | (k, v) :: rest =>
    TokenStream.append
      (TokenStream.append ⟨[.rule], Option.none⟩
        (TokenStream.append (provideDefault k) (provideDefault v)))
      (encodeEntries rest)
termination_by es => (sizeOf es, 0)

/-- Modelled from the spec: `WXFExprProvider.provide_wxfexpr` (the chain's
top-level entry point; its source file is not in the tree), specialised to
the one-encoder chain `[DefaultWXFEncoder]`.  Per the spec the provider pulls
the encoder's first produced element to decide claim status without
discarding it: an attempt that yields nothing and signals
`NotEncodedException` is unclaimed, and with no further encoder the provider
fails with the unsupported-type error naming `type(o).__name__`; otherwise
the attempt's full output is the result, verbatim. -/
def provideDefault (v : Value) : TokenStream :=
  let s := WXFEncoder._encode (defaultEncode v)
  if s.tokens = [] ∧ s.err = some Err.notEncoded then
    ⟨[], some (Err.unsupportedType v.typeName)⟩
  else s
termination_by (sizeOf v, 2)

end


/-- Payload read by the string branch. -/
def stringPayload : Value → String
  | .str s => s
  | _ => ""

/-- Payload read by the list branch (`len(pythonExpr)` / `iter(pythonExpr)`). -/
def listPayload : Value → List Value
  | .list xs => xs
  | _ => []

/-- Payload read by the dict branch (`len(pythonExpr)` / `pythonExpr.items()`). -/
def dictPayload : Value → List (Value × Value)
  | .dict es => es
  | _ => []

/-- Payload read by the float branch. -/
def floatPayload : Value → PyFloat
  | .real x => x
  | _ => ⟨0⟩

/-- Field read `pythonExpr.real` on the complex branch. -/
def complexRe : Value → PyFloat
  | .complex re _ => re
  | _ => ⟨0⟩

/-- Field read `pythonExpr.imag` on the complex branch. -/
def complexIm : Value → PyFloat
  | .complex _ im => im
  | _ => ⟨0⟩

/-- Python `pythonExpr is True` (identity with the `True` singleton). -/
def is_True : Value → Bool
  | .bool true => true
  | _ => false

/-- Python `pythonExpr is False`. -/
def is_False : Value → Bool
  | .bool false => true
  | _ => false

/-- Python `pythonExpr is None`. -/
def is_None : Value → Bool
  | .none => true
  | _ => false

/-- The `for pyArg in iter(pythonExpr): yield from self.serialize(pyArg)`
loop of the list branch, over an arbitrary bound `serialize`. -/
def serializeSeq (serialize : Value → TokenStream) : List Value → TokenStream
  | [] => ⟨[], Option.none⟩
  | x :: rest => TokenStream.append (serialize x) (serializeSeq serialize rest)

/-- The `for key, value in pythonExpr.items()` loop of the dict branch, over
an arbitrary bound `serialize`. -/
def serializeEntrySeq (serialize : Value → TokenStream) :
    List (Value × Value) → TokenStream
  | [] => ⟨[], Option.none⟩
  | (k, v) :: rest =>
    TokenStream.append
      (TokenStream.append ⟨[.rule], Option.none⟩
        (TokenStream.append (serialize k) (serialize v)))
      (serializeEntrySeq serialize rest)

/-- Literal transcription of the `elif` chain of `DefaultWXFEncoder.encode`,
in source order, over an arbitrary bound `serialize` (the re-entrant
delegation the encoder reaches its chain through).  The `is True` /
`is False` branches appear exactly where the source has them — after the
`isinstance(_, six.integer_types)` branch that in fact already claims every
boolean — and the final fall-through is the generator completing with no
yield. -/
def encodeBody (serialize : Value → TokenStream) (pythonExpr : Value) :
    TokenStream :=
  if isinstance_string pythonExpr then
    TokenStream.one (.string (stringPayload pythonExpr))
  else if isinstance_integer pythonExpr then
    TokenStream.one (.integer (integerPayload pythonExpr))
  else if isinstance_list pythonExpr then
    TokenStream.append
      ⟨[.func (listPayload pythonExpr).length, .symbol "List"], Option.none⟩
      (serializeSeq serialize (listPayload pythonExpr))
  else if isinstance_dict pythonExpr then
    TokenStream.append ⟨[.assoc (dictPayload pythonExpr).length], Option.none⟩
      (serializeEntrySeq serialize (dictPayload pythonExpr))
  else if is_True pythonExpr then TokenStream.one (.symbol "True")
  else if is_False pythonExpr then TokenStream.one (.symbol "False")
  else if is_None pythonExpr then TokenStream.one (.symbol "None")
  else if isinstance_float pythonExpr then
    TokenStream.one (.real (floatPayload pythonExpr))
  else if isinstance_complex pythonExpr then
    ⟨[.func 2, .symbol "Complex", .real (complexRe pythonExpr),
      .real (complexIm pythonExpr)], Option.none⟩
  else ⟨[], Option.none⟩

theorem encodeElems_eq_serializeSeq (xs : List Value) :
    encodeElems xs = serializeSeq provideDefault xs := by
  induction xs with
  | nil => rw [encodeElems, serializeSeq]
  | cons x rest ih => rw [encodeElems, serializeSeq, ih]

theorem encodeEntries_eq_serializeEntrySeq (es : List (Value × Value)) :
    encodeEntries es = serializeEntrySeq provideDefault es := by
  induction es with
  | nil => rw [encodeEntries, serializeEntrySeq]
  | cons kv rest ih =>
    obtain ⟨k, v⟩ := kv
    rw [encodeEntries, serializeEntrySeq, ih]

/-- Faithfulness: `defaultEncode` is exactly the source's `elif` chain with the chain's own
`provideDefault` bound as the re-entrant `serialize`. -/
theorem defaultEncode_eq_encodeBody (v : Value) :
    defaultEncode v = encodeBody provideDefault v := by
  cases v <;>
    simp only [defaultEncode, encodeBody, isinstance_string, isinstance_integer,
      isinstance_list, isinstance_dict, is_True, is_False, is_None,
      isinstance_float, isinstance_complex, stringPayload, integerPayload,
      listPayload, dictPayload, floatPayload, complexRe, complexIm,
      encodeElems_eq_serializeSeq, encodeEntries_eq_serializeEntrySeq,
      if_true, if_false, Bool.false_eq_true, ite_false, ite_true]

/-- Modelled from the spec: the owning chain (`WXFExprProvider`, whose source
file is not in the tree) as the encoders see it — the object carrying the
top-level entry point `provide_wxfexpr` (the spec's `provide_tokens`). -/
structure Provider where
  provide_wxfexpr : Value → TokenStream

/-- State of a `WXFEncoder` instance: `__slots__ = '_provider'` — the bound chain
back-reference is the instance's only field.  It is `None` until the provider
registers the encoder and binds itself. -/
structure WXFEncoder where
  _provider : Option Provider

/-- Constructor `WXFEncoder.__init__`: `self._provider = None`. -/
def WXFEncoder.init : WXFEncoder := ⟨Option.none⟩

/-- Run of `WXFEncoder.serialize(o)`: `for sub in
self._provider.provide_wxfexpr(o): yield sub` — verbatim forwarding to the
owning chain.  When `_provider` is still `None`, the attribute access
`self._provider.provide_wxfexpr` raises `AttributeError` on the first pull,
before any token is yielded. -/
def WXFEncoder.serialize (self : WXFEncoder) (o : Value) : TokenStream :=
  match self._provider with
  | some p => p.provide_wxfexpr o
  | Option.none => ⟨[], some Err.attributeError⟩

/-- Modelled from the spec: the dispatch loop of
`WXFExprProvider.provide_wxfexpr` over the ordered chain, each encoder given
by the run of its `encode` on the value.  The provider wraps each attempt in
`WXFEncoder._encode` and pulls the first produced element to decide claim
status without discarding it: an attempt that yields nothing and raises
`NotEncodedException` is unclaimed and the next encoder is tried; any other
attempt's output is the chain's result, verbatim.  If every encoder declines,
the chain fails with the unsupported-type error naming the value's runtime
type. -/
def provide_wxfexpr (encoders : List (Value → TokenStream)) (o : Value) :
    TokenStream :=
  match encoders with
  | [] => ⟨[], some (Err.unsupportedType o.typeName)⟩
  | e :: rest =>
    let s := WXFEncoder._encode (e o)
    if s.tokens = [] ∧ s.err = some Err.notEncoded then provide_wxfexpr rest o
    else s

/-- The one-encoder chain `[DefaultWXFEncoder]` of the mutual definition is an
instance of the general dispatch. -/
theorem provideDefault_eq_provide_wxfexpr (v : Value) :
    provideDefault v = provide_wxfexpr [defaultEncode] v := by
  rw [provideDefault]
  rfl

/-- The provider the concrete system binds on its default encoder. -/
def defaultProvider : Provider := ⟨provideDefault⟩

/-- A default encoder registered with (bound to) `defaultProvider`. -/
def boundDefaultEncoder : WXFEncoder := ⟨some defaultProvider⟩

/-- Binding closes the knot: the bound default encoder's re-entrant
`serialize` is exactly the `provideDefault` the mutual definition recurses
through, so its `encode` body reproduces `defaultEncode`. -/
theorem encodeBody_boundDefault (v : Value) :
    encodeBody (WXFEncoder.serialize boundDefaultEncoder) v = defaultEncode v := by
  rw [defaultEncode_eq_encodeBody]
  rfl

/-!  State-passing readings of the three methods, for the frame claims: each
body is translated statement by statement, threading the instance state; no
statement of any of the three assigns to `self._provider` (the only slot), so
each returns the pre-state. -/

/-- State-passing `WXFEncoder.serialize`: reads `self._provider`, writes
nothing. -/
def WXFEncoder.serializeSt (self : WXFEncoder) (o : Value) :
    WXFEncoder × TokenStream :=
  (self, self.serialize o)

/-- State-passing `DefaultWXFEncoder.encode`: the body touches `self` only
through `self.serialize`, and writes nothing. -/
def WXFEncoder.encodeSt (self : WXFEncoder) (o : Value) :
    WXFEncoder × TokenStream :=
  (self, encodeBody (WXFEncoder.serialize self) o)

/-- State-passing `WXFEncoder._encode` over the default encoder's `encode`:
loops over `self.encode(o)`, writes nothing. -/
def WXFEncoder.encodeWrapperSt (self : WXFEncoder) (o : Value) :
    WXFEncoder × TokenStream :=
  (self, WXFEncoder._encode (WXFEncoder.encodeSt self o).2)

theorem TokenStream.append_err_none_iff (a b : TokenStream) :
    (TokenStream.append a b).err = Option.none ↔
      (a.err = Option.none ∧ b.err = Option.none) := by
  unfold TokenStream.append
  cases h : a.err <;> simp [h]

theorem TokenStream.append_of_err_none {a : TokenStream} (b : TokenStream)
    (h : a.err = Option.none) :
    TokenStream.append a b = ⟨a.tokens ++ b.tokens, b.err⟩ := by
  unfold TokenStream.append
  rw [h]

theorem WXFEncoder._encode_of_err_some {s : TokenStream} {e : Err}
    (h : s.err = some e) : WXFEncoder._encode s = s := by
  obtain ⟨ts, er⟩ := s
  cases h
  rfl

theorem WXFEncoder._encode_of_empty {s : TokenStream}
    (h : s.err = Option.none) (ht : s.tokens = []) :
    WXFEncoder._encode s = ⟨[], some Err.notEncoded⟩ := by
  obtain ⟨ts, er⟩ := s
  cases h
  cases ht
  rfl

theorem WXFEncoder._encode_of_claimed {s : TokenStream}
    (h : s.err = Option.none) (ht : s.tokens ≠ []) :
    WXFEncoder._encode s = s := by
  obtain ⟨ts, er⟩ := s
  cases h
  cases ts with
  | nil => exact absurd rfl ht
  | cons a l => rfl

/-- A successful chain result for the one-encoder chain is exactly a
successful, non-empty run of the default encoder, passed through verbatim. -/
theorem provideDefault_of_err_none {v : Value}
    (h : (provideDefault v).err = Option.none) :
    provideDefault v = defaultEncode v ∧
      (defaultEncode v).err = Option.none ∧ (defaultEncode v).tokens ≠ [] := by
  rw [provideDefault] at h ⊢
  by_cases hc : (WXFEncoder._encode (defaultEncode v)).tokens = [] ∧
      (WXFEncoder._encode (defaultEncode v)).err = some Err.notEncoded
  · rw [if_pos hc] at h
    exact absurd h (by simp)
  · rw [if_neg hc] at h ⊢
    cases he : (defaultEncode v).err with
    | some e =>
      rw [WXFEncoder._encode_of_err_some he, he] at h
      exact absurd h (by simp)
    | none =>
      by_cases ht : (defaultEncode v).tokens = []
      · exact absurd
          (by rw [WXFEncoder._encode_of_empty he ht]; exact ⟨rfl, rfl⟩) hc
      · exact ⟨by rw [WXFEncoder._encode_of_claimed he ht], rfl, ht⟩

/-!  The arity discipline of the WXF token stream, as a grammar of complete
subtrees: a leaf token is a subtree on its own; a function header of arity
`n` is followed by `n + 1` subtrees (head, then `n` arguments); an
association header of arity `n` is followed by `n` rule pairs; a rule pair
is a rule marker followed by two subtrees (key, value).  -/

mutual

/-- Predicate: `ts` is exactly one complete WXF subtree. -/
inductive IsExpr : List Token → Prop where
  | string (s : String) : IsExpr [.string s]
  | integer (n : Int) : IsExpr [.integer n]
  | symbol (s : String) : IsExpr [.symbol s]
  | real (x : PyFloat) : IsExpr [.real x]
  | func (n : Nat) (ts : List Token) :
      IsExprSeq (n + 1) ts → IsExpr (.func n :: ts)
  | assoc (n : Nat) (ts : List Token) :
      IsRulePairs n ts → IsExpr (.assoc n :: ts)

/-- Predicate: `ts` is exactly the concatenation of `n` complete subtrees. -/
inductive IsExprSeq : Nat → List Token → Prop where
  | nil : IsExprSeq 0 []
  | cons (ts us : List Token) (n : Nat) :
      IsExpr ts → IsExprSeq n us → IsExprSeq (n + 1) (ts ++ us)

/-- Predicate: `ts` is exactly `n` rule pairs, each a rule marker followed by two
complete subtrees. -/
inductive IsRulePairs : Nat → List Token → Prop where
  | nil : IsRulePairs 0 []
  | cons (ks vs us : List Token) (n : Nat) :
      IsExpr ks → IsExpr vs → IsRulePairs n us →
      IsRulePairs (n + 1) (.rule :: (ks ++ (vs ++ us)))

end

mutual

/-- Every successful chain result is one complete, arity-correct subtree. -/
theorem provideDefault_isExpr :
    ∀ (v : Value), (provideDefault v).err = Option.none →
      IsExpr (provideDefault v).tokens
  | .str s, h => by
    obtain ⟨heq, herr, hne⟩ := provideDefault_of_err_none h
    rw [heq, defaultEncode]
    exact IsExpr.string s
  | .int n, h => by
    obtain ⟨heq, herr, hne⟩ := provideDefault_of_err_none h
    rw [heq, defaultEncode]
    exact IsExpr.integer n
  | .bool b, h => by
    obtain ⟨heq, herr, hne⟩ := provideDefault_of_err_none h
    rw [heq, defaultEncode]
    exact IsExpr.integer _
  | .none, h => by
    obtain ⟨heq, herr, hne⟩ := provideDefault_of_err_none h
    rw [heq, defaultEncode]
    exact IsExpr.symbol "None"
  | .real x, h => by
    obtain ⟨heq, herr, hne⟩ := provideDefault_of_err_none h
    rw [heq, defaultEncode]
    exact IsExpr.real x
  | .complex re im, h => by
    obtain ⟨heq, herr, hne⟩ := provideDefault_of_err_none h
    rw [heq, defaultEncode]
    exact IsExpr.func 2 _
      (IsExprSeq.cons [Token.symbol "Complex"] _ 2 (IsExpr.symbol _)
        (IsExprSeq.cons [Token.real re] _ 1 (IsExpr.real _)
          (IsExprSeq.cons [Token.real im] [] 0 (IsExpr.real _) IsExprSeq.nil)))
  | .other t, h => by
    obtain ⟨heq, herr, hne⟩ := provideDefault_of_err_none h
    rw [defaultEncode] at hne
    exact absurd rfl hne
  | .list xs, h => by
    obtain ⟨heq, herr, hne⟩ := provideDefault_of_err_none h
    rw [heq]
    rw [defaultEncode] at herr ⊢
    rw [TokenStream.append_of_err_none _ rfl] at herr ⊢
    simp only at herr ⊢
    exact IsExpr.func xs.length _
      (IsExprSeq.cons [Token.symbol "List"] _ xs.length (IsExpr.symbol _)
        (encodeElems_isExprSeq xs herr))
  | .dict es, h => by
    obtain ⟨heq, herr, hne⟩ := provideDefault_of_err_none h
    rw [heq]
    rw [defaultEncode] at herr ⊢
    rw [TokenStream.append_of_err_none _ rfl] at herr ⊢
    simp only at herr ⊢
    exact IsExpr.assoc es.length _ (encodeEntries_isRulePairs es herr)
termination_by v _ => (sizeOf v, 1)

/-- A successful run of the list-branch element loop over `xs` is the
concatenation of `xs.length` complete subtrees. -/
theorem encodeElems_isExprSeq :
    ∀ (xs : List Value), (encodeElems xs).err = Option.none →
      IsExprSeq xs.length (encodeElems xs).tokens
  | [], _ => by
    rw [encodeElems]
    exact IsExprSeq.nil
  | x :: rest, h => by
    rw [encodeElems] at h ⊢
    obtain ⟨h1, h2⟩ := (TokenStream.append_err_none_iff _ _).mp h
    rw [TokenStream.append_of_err_none _ h1]
    exact IsExprSeq.cons _ _ rest.length (provideDefault_isExpr x h1)
      (encodeElems_isExprSeq rest h2)
termination_by xs _ => (sizeOf xs, 0)

/-- A successful run of the dict-branch entry loop over `es` is exactly
`es.length` rule pairs. -/
theorem encodeEntries_isRulePairs :
    ∀ (es : List (Value × Value)), (encodeEntries es).err = Option.none →
      IsRulePairs es.length (encodeEntries es).tokens
  | [], _ => by
    rw [encodeEntries]
    exact IsRulePairs.nil
  | (k, v) :: rest, h => by
    rw [encodeEntries] at h ⊢
    obtain ⟨h1, h2⟩ := (TokenStream.append_err_none_iff _ _).mp h
    obtain ⟨-, h3⟩ := (TokenStream.append_err_none_iff _ _).mp h1
    obtain ⟨h4, h5⟩ := (TokenStream.append_err_none_iff _ _).mp h3
    rw [TokenStream.append_of_err_none _ h1,
      TokenStream.append_of_err_none _ (by rfl),
      TokenStream.append_of_err_none _ h4]
    simp only [List.cons_append, List.nil_append, List.append_assoc]
    exact IsRulePairs.cons _ _ _ rest.length (provideDefault_isExpr k h4)
      (provideDefault_isExpr v h5) (encodeEntries_isRulePairs rest h2)
termination_by es _ => (sizeOf es, 0)

end

/-- A successful element loop is the concatenation of the elements' chain
encodings, in order. -/
theorem encodeElems_of_all_err_none {xs : List Value}
    (h : ∀ x ∈ xs, (provideDefault x).err = Option.none) :
    encodeElems xs =
      ⟨(xs.map fun x => (provideDefault x).tokens).flatten, Option.none⟩ := by
  induction xs with
  | nil => rw [encodeElems]; rfl
  | cons x rest ih =>
    rw [encodeElems, ih fun y hy => h y (List.mem_cons_of_mem _ hy),
      TokenStream.append_of_err_none _ (h x (List.mem_cons_self _ _))]
    simp

/-- A successful entry loop is the concatenation, entry by entry, of a rule
marker, the key's chain encoding and the value's chain encoding. -/
theorem encodeEntries_of_all_err_none {es : List (Value × Value)}
    (h : ∀ kv ∈ es, (provideDefault kv.1).err = Option.none ∧
        (provideDefault kv.2).err = Option.none) :
    encodeEntries es =
      ⟨(es.map fun kv => Token.rule ::
          ((provideDefault kv.1).tokens ++ (provideDefault kv.2).tokens)).flatten,
        Option.none⟩ := by
  induction es with
  | nil => rw [encodeEntries]; rfl
  | cons kv rest ih =>
    obtain ⟨k, v⟩ := kv
    obtain ⟨hk, hv⟩ := h (k, v) (List.mem_cons_self _ _)
    have hkv : TokenStream.append (provideDefault (k, v).1) (provideDefault (k, v).2) =
        ⟨(provideDefault (k, v).1).tokens ++ (provideDefault (k, v).2).tokens,
          Option.none⟩ := by
      rw [TokenStream.append_of_err_none _ hk, hv]
    have hrule : TokenStream.append ⟨[Token.rule], Option.none⟩
        (TokenStream.append (provideDefault (k, v).1) (provideDefault (k, v).2)) =
        ⟨Token.rule :: ((provideDefault (k, v).1).tokens ++
          (provideDefault (k, v).2).tokens), Option.none⟩ := by
      rw [hkv, TokenStream.append_of_err_none _ (by rfl)]
      simp
    rw [encodeEntries, hrule, ih fun y hy => h y (List.mem_cons_of_mem _ hy),
      TokenStream.append_of_err_none _ (by rfl)]
    simp

/-- C1: the claim says `encode(True)` / `encode(False)` yields exactly one
symbol token `True` / `False` and never an integer token, the boolean check
preceding the integer check.  The source does the opposite: Python's `bool`
is a subclass of `int`, so `isinstance(pythonExpr, six.integer_types)` claims
both booleans at the *integer* branch and the later `is True` / `is False`
branches (which do yield symbol tokens, and are evidently the intended
handling) are unreachable.  Both renderings of the source — the dispatch
`defaultEncode` and the literal `elif` transcription `encodeBody` — yield one
integer token and no symbol token for each boolean. -/
theorem C1_boolean_hits_integer_branch :
    defaultEncode (Value.bool true) = ⟨[Token.integer 1], Option.none⟩ ∧
    defaultEncode (Value.bool false) = ⟨[Token.integer 0], Option.none⟩ ∧
    encodeBody provideDefault (Value.bool true) =
      ⟨[Token.integer 1], Option.none⟩ ∧
    encodeBody provideDefault (Value.bool false) =
      ⟨[Token.integer 0], Option.none⟩ := by
  refine ⟨?_, ?_, ?_, ?_⟩ <;>
    simp [defaultEncode, encodeBody, isinstance_string, isinstance_integer,
      integerPayload, TokenStream.one]

/-- C2: the empty token sequence is the sole declining channel: when an
encoder's `encode` run finishes with no token, `_encode` raises
`NotEncodedException`; when it finishes having yielded at least one token,
`_encode` passes the run through verbatim, raising nothing; and every value
matching none of the Default Encoder's eight categories is declined exactly
this way. -/
theorem C2_empty_yield_is_sole_decline :
    (∀ (enc : Value → TokenStream) (v : Value),
      ((enc v).err = Option.none → (enc v).tokens = [] →
        WXFEncoder._encode (enc v) = ⟨[], some Err.notEncoded⟩) ∧
      ((enc v).err = Option.none → (enc v).tokens ≠ [] →
        WXFEncoder._encode (enc v) = enc v)) ∧
    (∀ t : String, WXFEncoder._encode (defaultEncode (Value.other t)) =
      ⟨[], some Err.notEncoded⟩) := by
  constructor
  · exact fun enc v =>
      ⟨fun he ht => WXFEncoder._encode_of_empty he ht,
       fun he ht => WXFEncoder._encode_of_claimed he ht⟩
  · intro t
    rw [defaultEncode]
    rfl

/-- C2 witness: the Default Encoder's run on an integer yields one token and
is passed through `_encode` verbatim; its run on an unmatched value yields
nothing and `_encode` raises the unclaimed signal on it. -/
theorem C2_witness :
    WXFEncoder._encode (defaultEncode (Value.int 3)) =
      defaultEncode (Value.int 3) ∧
    WXFEncoder._encode (defaultEncode (Value.other "object")) =
      ⟨[], some Err.notEncoded⟩ :=
  ⟨(C2_empty_yield_is_sole_decline.1 defaultEncode (Value.int 3)).2
      (by rw [defaultEncode]; rfl) (by rw [defaultEncode]; simp [TokenStream.one]),
   C2_empty_yield_is_sole_decline.2 "object"⟩

/-- C3: a native list of `N` elements encodes as a function header of arity
`N`, one symbol token `List`, then the chain encodings of the `N` elements in
their original order (depth-first pre-order); in particular `encode([])`
yields exactly `[FunctionHeader(0), Symbol("List")]` and
`encode([1, [2, 3]])` yields exactly `FunctionHeader(2), Symbol("List"),
Integer(1), FunctionHeader(2), Symbol("List"), Integer(2), Integer(3)`. -/
theorem C3_list_encoding :
    (∀ xs : List Value, (∀ x ∈ xs, (provideDefault x).err = Option.none) →
      defaultEncode (Value.list xs) =
        ⟨Token.func xs.length :: Token.symbol "List" ::
          (xs.map fun x => (provideDefault x).tokens).flatten, Option.none⟩) ∧
    defaultEncode (Value.list []) =
      ⟨[Token.func 0, Token.symbol "List"], Option.none⟩ ∧
    defaultEncode (Value.list [Value.int 1, Value.list [Value.int 2, Value.int 3]]) =
      ⟨[Token.func 2, Token.symbol "List", Token.integer 1, Token.func 2,
        Token.symbol "List", Token.integer 2, Token.integer 3], Option.none⟩ := by
  refine ⟨fun xs h => ?_, ?_, ?_⟩
  · rw [defaultEncode, encodeElems_of_all_err_none h,
      TokenStream.append_of_err_none _ (by rfl)]
    rfl
  · simp [defaultEncode, encodeElems, TokenStream.append]
  · simp [defaultEncode, provideDefault, encodeElems, WXFEncoder._encode,
      TokenStream.one, TokenStream.append]

/-- C3 witness: the general list law applied to the concrete list
`[None, "a"]`. -/
theorem C3_witness :
    defaultEncode (Value.list [Value.none, Value.str "a"]) =
      ⟨[Token.func 2, Token.symbol "List", Token.symbol "None",
        Token.string "a"], Option.none⟩ := by
  have h := C3_list_encoding.1 [Value.none, Value.str "a"] (by
    intro x hx
    simp only [List.mem_cons, List.not_mem_nil, or_false] at hx
    rcases hx with rfl | rfl <;>
      simp [provideDefault, defaultEncode, WXFEncoder._encode, TokenStream.one])
  rw [h]
  simp [provideDefault, defaultEncode, WXFEncoder._encode, TokenStream.one]

/-- C4: a native mapping of `N` entries encodes as an association header of
arity `N` and then, per entry in iteration order, a rule marker, the chain
encoding of the key, and the chain encoding of the value; in particular
`encode({})` yields exactly `[AssociationHeader(0)]`. -/
theorem C4_dict_encoding :
    (∀ es : List (Value × Value),
      (∀ kv ∈ es, (provideDefault kv.1).err = Option.none ∧
          (provideDefault kv.2).err = Option.none) →
      defaultEncode (Value.dict es) =
        ⟨Token.assoc es.length ::
          (es.map fun kv => Token.rule ::
            ((provideDefault kv.1).tokens ++ (provideDefault kv.2).tokens)).flatten,
          Option.none⟩) ∧
    defaultEncode (Value.dict []) = ⟨[Token.assoc 0], Option.none⟩ := by
  refine ⟨fun es h => ?_, ?_⟩
  · rw [defaultEncode, encodeEntries_of_all_err_none h,
      TokenStream.append_of_err_none _ (by rfl)]
    rfl
  · simp [defaultEncode, encodeEntries, TokenStream.append]

/-- C4 witness: the general mapping law applied to the one-entry dictionary
`{"k": 1}`. -/
theorem C4_witness :
    defaultEncode (Value.dict [(Value.str "k", Value.int 1)]) =
      ⟨[Token.assoc 1, Token.rule, Token.string "k", Token.integer 1],
        Option.none⟩ := by
  have h := C4_dict_encoding.1 [(Value.str "k", Value.int 1)] (by
    intro kv hkv
    simp only [List.mem_cons, List.not_mem_nil, or_false] at hkv
    cases hkv
    constructor <;>
      simp [provideDefault, defaultEncode, WXFEncoder._encode, TokenStream.one])
  rw [h]
  simp [provideDefault, defaultEncode, WXFEncoder._encode, TokenStream.one]

/-- C5: every completed stream the chain produces for a claimed value is
arity-correct — one complete subtree in the grammar where a function header
of arity `N` is followed by exactly `N + 1` complete subtrees (head plus `N`
arguments), an association header of arity `N` by exactly `N` rule pairs,
and each rule pair is a rule marker followed by exactly 2 subtrees. -/
theorem C5_arity_law (v : Value)
    (h : (provideDefault v).err = Option.none) :
    IsExpr (provideDefault v).tokens :=
  provideDefault_isExpr v h

/-- C5 witness: the arity law at the concrete value `[1, {"k": None}]`. -/
theorem C5_witness :
    IsExpr (provideDefault
      (Value.list [Value.int 1,
        Value.dict [(Value.str "k", Value.none)]])).tokens :=
  C5_arity_law _ (by
    simp [provideDefault, defaultEncode, encodeElems, encodeEntries,
      WXFEncoder._encode, TokenStream.one, TokenStream.append])

/-- C6: re-entrant equivalence: for an encoder bound to a chain, the
delegation helper `serialize(v)` yields exactly the token sequence the
chain's top-level entry point `provide_wxfexpr` yields for `v` directly —
`serialize` is verbatim forwarding. -/
theorem C6_serialize_equals_top_level (e : WXFEncoder) (p : Provider)
    (v : Value) (h : e._provider = some p) :
    WXFEncoder.serialize e v = p.provide_wxfexpr v := by
  unfold WXFEncoder.serialize
  rw [h]

/-- C6 witness: the bound default encoder's `serialize` on `[2]` is the
chain's top-level result on `[2]`. -/
theorem C6_witness :
    WXFEncoder.serialize boundDefaultEncoder (Value.list [Value.int 2]) =
      Provider.provide_wxfexpr defaultProvider (Value.list [Value.int 2]) :=
  C6_serialize_equals_top_level boundDefaultEncoder defaultProvider
    (Value.list [Value.int 2]) rfl

/-- C7: `encode(None)` yields exactly one token, the symbol token `None` —
both as the raw `DefaultWXFEncoder.encode` run and as the chain result. -/
theorem C7_none_yields_symbol :
    defaultEncode Value.none = ⟨[Token.symbol "None"], Option.none⟩ ∧
    provideDefault Value.none = ⟨[Token.symbol "None"], Option.none⟩ := by
  constructor <;>
    simp [provideDefault, defaultEncode, WXFEncoder._encode, TokenStream.one]

/-- C8: determinism as two-run equality: two encode runs on an identical
value with an identical chain configuration produce identical token
sequences — both for an arbitrary chain through the dispatcher and for the
default encoder itself.  The embedding of the encoder is a pure function of
(chain, value): the source reads no clock, randomness or mutable global, so
two runs are the same function application. -/
theorem C8_two_run_determinism
    (encoders₁ encoders₂ : List (Value → TokenStream)) (v₁ v₂ : Value)
    (hc : encoders₁ = encoders₂) (hv : v₁ = v₂) :
    provide_wxfexpr encoders₁ v₁ = provide_wxfexpr encoders₂ v₂ ∧
    defaultEncode v₁ = defaultEncode v₂ := by
  rw [hc, hv]
  exact ⟨rfl, rfl⟩

/-- C8 witness: two runs of the default chain on the value `7`. -/
theorem C8_witness :
    provide_wxfexpr [defaultEncode] (Value.int 7) =
      provide_wxfexpr [defaultEncode] (Value.int 7) :=
  (C8_two_run_determinism [defaultEncode] [defaultEncode]
    (Value.int 7) (Value.int 7) rfl rfl).1

/-- C9: no encode call mutates encoder or chain state: in the state-passing
reading of `serialize`, `encode` and `_encode` (whose bodies contain no
assignment to `_provider`, the only slot), the post-state equals the
pre-state, so a chain is reusable read-only across independent encode
calls. -/
theorem C9_encode_preserves_state (e : WXFEncoder) (v : Value) :
    (WXFEncoder.serializeSt e v).1 = e ∧
    (WXFEncoder.encodeSt e v).1 = e ∧
    (WXFEncoder.encodeWrapperSt e v).1 = e ∧
    ((WXFEncoder.serializeSt e v).1)._provider = e._provider :=
  ⟨rfl, rfl, rfl, rfl⟩

/-- C10: an encoder never registered with a chain still has the initial
`_provider = None` of `__init__`, and iterating `serialize(v)` on it fails
with `AttributeError` before yielding a single token: registration is a
precondition of re-entrant delegation. -/
theorem C10_unregistered_serialize_fails (v : Value) :
    WXFEncoder.init._provider = Option.none ∧
    (WXFEncoder.serialize WXFEncoder.init v).tokens = [] ∧
    (WXFEncoder.serialize WXFEncoder.init v).err = some Err.attributeError :=
  ⟨rfl, rfl, rfl⟩
